import Mathlib

/-!
Shallow embedding of `src/driver/device-mapper/dmfs-table.c` (the dmfs table
descriptor parser) and proofs about the claims of its specification.

Conventions of the embedding:
* C strings become `List Char`; a NUL byte is `Char.ofNat 0`.  Reading a C
  string from the scratch buffer takes characters up to the first NUL.
* The scratch page (`__get_free_page`) becomes a `List Char` mutated in place
  with `List.set`; its initial (uninitialized) contents are a parameter.
* `offset_t` / `unsigned long` arithmetic is `Nat` reduced `% 2 ^ 64`.
* Functions external to the file (`dm_get_target_type`, the target's
  `ctr`/`dtr`, `dm_table_add_target`, `dmfs_add_error`, `dm_table_complete`)
  are modelled as oracles / from the spec, as documented on each definition.
* Side effects on the external collaborators are recorded as an explicit
  `Event` trace so that acquire/release and constructor-invocation claims can
  be stated.
* `while` loops become fuel-indexed structural recursion; the fuel chosen by
  the wrappers always suffices, and running out of fuel (or a loop iteration
  that provably makes no progress, which in C would spin forever) is reported
  through a `diverged` flag rather than by under-approximating the loop.
-/

namespace Dmfs

/-- Width of `offset_t` / `unsigned long` arithmetic (modelled as 64-bit). -/
def W : Nat := 2 ^ 64

/-- The NUL byte, used as C string terminator. -/
def nul : Char := Char.ofNat 0

/-- The delimiters of `next_token` (`static const char *delim = " \t"`). -/
def isDelim (c : Char) : Bool := c = ' ' || c = '\t'

/-- The token scan of `next_token` on a non-NULL cursor: repeated `strsep`
calls skipping empty tokens.  `strsep` splits at the first delimiter; a string
that starts with a delimiter yields an empty token, which the `do`/`while`
loop of `next_token` skips, consuming that delimiter.  Returns the token and
the updated cursor (`none` models the cursor becoming NULL when no delimiter
remains). -/
def nextTokenGo : List Char → Option (List Char × Option (List Char))
  | [] => none
  | c :: rest =>
    if isDelim c then nextTokenGo rest
    else
      let s := c :: rest
      let tok := s.takeWhile (fun x => !(isDelim x))
      if tok.length = s.length then some (tok, none)
      else some (tok, some (s.drop (tok.length + 1)))

/-- `next_token(&p)`: returns the next non-empty token, or `none` at end of
input; the second component is the cursor after the call. -/
def next_token (p : Option (List Char)) : Option (List Char) × Option (List Char) :=
  match p with
  | none => (none, none)
  | some s =>
    match nextTokenGo s with
    | none => (none, none)
    | some (tok, p1) => (some tok, p1)

/-- Modelled from the spec: `simple_strtoul(tok, NULL, 10)` (kernel helper,
not in src) parses leading base-10 digits, wrapping in `unsigned long`;
"start, size: base-10 unsigned integers". -/
def simple_strtoul (tok : List Char) : Nat :=
  (tok.takeWhile (fun c => c.isDigit)).foldl (fun a c => (a * 10 + (c.toNat - 48)) % W) 0

/-- Trace of interactions with the target-type registry and the table
bookkeeping, in program order. -/
inductive Event where
  | getType (name : String) (ok : Bool)
  | ctrCall (name : String) (start size : Nat) (ok : Bool)
  | addTarget (high : Nat) (ok : Bool)
  | dtrCall (name : String)
  | putType (name : String)
deriving DecidableEq, Repr

/-- A registered target type; only its constructor behaviour is observable to
this file (`none` models a non-zero return from `ctr`). -/
structure TargetType where
  ctr : Nat → Nat → Option (List Char) → Option Nat

/-- Modelled from the spec: `dm_get_target_type` "resolves a name via
TargetTypeRegistry"; an arbitrary name-to-type map. -/
def Registry : Type := String → Option TargetType

/-- Modelled from the spec: success or failure of `dm_table_add_target`
("append can fail, e.g. bookkeeping capacity or ordering violation"), as an
oracle deciding from the current highs and the new high. -/
def AddOracle : Type := List Nat → Nat → Bool

/-- The table being built: the `highs` of the targets added so far, and the
error sink.  (`num_targets` is `highs.length`.) -/
structure DmTable where
  highs : List Nat
  errors : List (Nat × String)
deriving DecidableEq, Repr

/-- Modelled from the spec: `dmfs_add_error` (ErrorSink) "accumulates
(line-number, message) diagnostics without halting the overall parse". -/
def dmfs_add_error (t : DmTable) (num : Nat) (msg : String) : DmTable :=
  { t with errors := t.errors ++ [(num, msg)] }

/-- `start_of_next_range`: 0 for an empty table, else last high + 1. -/
def start_of_next_range (t : DmTable) : Nat :=
  match t.highs.getLast? with
  | none => 0
  | some h => (h + 1) % W

/-- The buffer mutation performed by the token phase of `dmfs_parse_line`:
`strsep` overwrites with NUL every delimiter it scanned past.  The scanned
region is the prefix of the line up to the final cursor (the whole line when
the cursor became NULL); every delimiter in it becomes NUL, the rest of the
line is untouched. -/
def scrubDelims (str : List Char) (rest : Option (List Char)) : List Char :=
  let n := str.length - (match rest with | some r => r.length | none => 0)
  (str.take n).map (fun c => if isDelim c then nul else c) ++ str.drop n

/-- `high = start + (size - 1)` in `offset_t` arithmetic. -/
def targetHigh (start size : Nat) : Nat := (start + ((size + (W - 1)) % W)) % W

/-- `dmfs_parse_line`: parse one NUL-terminated line against table `t` at
line number `num`.  Returns the updated table, the line's bytes after the
in-place `strsep` mutation, and the trace of external events. -/
def dmfs_parse_line (reg : Registry) (addOk : AddOracle) (t : DmTable) (num : Nat)
    (str : List Char) : DmTable × List Char × List Event :=
  match next_token (some str) with
  | (none, p1) => (dmfs_add_error t num "No start argument", scrubDelims str p1, [])
  | (some tok1, p1) =>
    let start := simple_strtoul tok1
    match next_token p1 with
    | (none, p2) => (dmfs_add_error t num "No size argument", scrubDelims str p2, [])
    | (some tok2, p2) =>
      let size := simple_strtoul tok2
      if start ≠ start_of_next_range t then
        (dmfs_add_error t num "Gap in table", scrubDelims str p2, [])
      else
        match next_token p2 with
        | (none, p3) => (dmfs_add_error t num "No target type", scrubDelims str p3, [])
        | (some tok3, p3) =>
          let name := String.mk tok3
          match reg name with
          | none =>
            (dmfs_add_error t num "Target type unknown", scrubDelims str p3,
             [Event.getType name false])
          | some ttype =>
            match ttype.ctr start size p3 with
            | none =>
              (dmfs_add_error t num "This message should never appear (constructor error)",
               scrubDelims str p3,
               [Event.getType name true, Event.ctrCall name start size false,
                Event.putType name])
            | some _context =>
              let high := targetHigh start size
              if addOk t.highs high then
                ({ t with highs := t.highs ++ [high] }, scrubDelims str p3,
                 [Event.getType name true, Event.ctrCall name start size true,
                  Event.addTarget high true])
              else
                (dmfs_add_error t num "Error adding target to table", scrubDelims str p3,
                 [Event.getType name true, Event.ctrCall name start size true,
                  Event.addTarget high false, Event.dtrCall name, Event.putType name])

/-- `dmfs_copy(dst, dstlen, src, srclen, &flag)`: copy source bytes into the
scratch buffer starting at position `pos`, at most `dstlen` of them, stopping
after the first newline, which is overwritten in the buffer with NUL and sets
the flag.  Returns the updated buffer, the number of source bytes consumed
(`copied`), and the flag. -/
def dmfs_copy (tmp : List Char) (pos : Nat) (dstlen : Nat) (src : List Char) :
    List Char × Nat × Bool :=
  match dstlen, src with
  | 0, _ => (tmp, 0, false)
  | _, [] => (tmp, 0, false)
  | dl + 1, c :: rest =>
    if c = '\n' then ((tmp.set pos c).set pos nul, 1, true)
    else
      let r := dmfs_copy (tmp.set pos c) (pos + 1) dl rest
      (r.1, r.2.1 + 1, r.2.2)

/-- State shared across `dmfs_parse_page` calls: the table under construction,
the scratch line buffer `tmp`, its fill length `*tmpl` and the line counter
`*num`. -/
structure PPState where
  t : DmTable
  tmp : List Char
  tmpl : Nat
  num : Nat
deriving DecidableEq, Repr

/-- Result of a `dmfs_parse_page` call: the updated shared state, the
`dmfs_parse_line` invocations made (line number and the line text handed
over), the external events, whether `-1` was returned (line too long), and
whether the loop failed to make progress (which in C would spin forever). -/
structure PPOut where
  st : PPState
  calls : List (Nat × List Char)
  events : List Event
  err : Bool
  diverged : Bool
deriving DecidableEq, Repr

/-- Read the C string currently in the scratch buffer (bytes before the first
NUL); this is the pointer `tmp` as seen by `dmfs_parse_line`. -/
def cstr (l : List Char) : List Char := l.takeWhile (fun c => c ≠ nul)

/-- The `do`/`while` loop body of `dmfs_parse_page`, with fuel for the
recursive continuation.  Each iteration copies into `tmp + *tmpl`, checks the
`PAGE_SIZE - 1` overflow (recording "Line too long" and returning `-1`),
assigns `*tmpl = copied` (the faithful transcription of line 130 of the
source — an assignment, not an accumulation), on a newline hands the buffered
C string to `dmfs_parse_line` (whose `strsep` mutation of the buffer is
applied before continuing) and resets `*tmpl`, then loops while source bytes
remain. -/
def dmfs_parse_pageGo (ps : Nat) (reg : Registry) (addOk : AddOracle) :
    Nat → PPState → List Char → PPOut
  | fuel, st, buf =>
    let c := dmfs_copy st.tmp st.tmpl (ps - st.tmpl - 1) buf
    let tmp1 := c.1
    let copied := c.2.1
    let flag := c.2.2
    if st.tmpl + copied = ps - 1 then
      { st := { st with t := dmfs_add_error st.t st.num "Line too long", tmp := tmp1 },
        calls := [], events := [], err := true, diverged := false }
    else
      let step : PPState × List (Nat × List Char) × List Event :=
        if flag then
          let line := cstr tmp1
          let r := dmfs_parse_line reg addOk st.t st.num line
          ({ t := r.1, tmp := r.2.1 ++ tmp1.drop line.length, tmpl := 0, num := st.num + 1 },
           [(st.num, line)], r.2.2)
        else ({ st with tmp := tmp1, tmpl := copied }, [], [])
      let rem := buf.drop copied
      if rem.length = 0 then
        { st := step.1, calls := step.2.1, events := step.2.2, err := false, diverged := false }
      else if copied = 0 then
        { st := step.1, calls := step.2.1, events := step.2.2, err := false, diverged := true }
      else
        match fuel with
        | 0 =>
          { st := step.1, calls := step.2.1, events := step.2.2, err := false, diverged := true }
        | fuel1 + 1 =>
          let r := dmfs_parse_pageGo ps reg addOk fuel1 step.1 rem
          { st := r.st, calls := step.2.1 ++ r.calls, events := step.2.2 ++ r.events,
            err := r.err, diverged := r.diverged }

/-- `dmfs_parse_page(t, buf, len, tmp, tmpl, num)`: run the assembler loop on
one chunk.  Each loop iteration consumes at least one source byte, so
`buf.length` fuel always suffices. -/
def dmfs_parse_page (ps : Nat) (reg : Registry) (addOk : AddOracle) (st : PPState)
    (buf : List Char) : PPOut :=
  dmfs_parse_pageGo ps reg addOk buf.length st buf

/-- A slot of the inode's page cache, as `dmfs_parse` probes it:
`__find_page_nolock` can miss (`absent`), or hit a page that is not
`Page_Uptodate`, or hit an up-to-date page holding one page worth of bytes. -/
inductive PageSlot where
  | absent
  | notUpToDate (data : List Char)
  | upToDate (data : List Char)
deriving DecidableEq, Repr

/-- Result of `dmfs_parse`: the returned table (`none` for a NULL return),
the line-parser invocations and the external events, the chunks fed through
`dmfs_parse_page` as (page index, byte count) in order, whether
`dm_create_table` was reached, and whether a loop failed to terminate. -/
structure ParseOut where
  table : Option DmTable
  calls : List (Nat × List Char)
  events : List Event
  fed : List (Nat × Nat)
  createdTable : Bool
  diverged : Bool
deriving DecidableEq, Repr

/-- Modelled from the spec: `dm_table_complete` (TableBuilder.finalize, not in
src) "fails if zero ranges were added or if any ParseError was recorded". -/
def dm_table_complete (t : DmTable) : Bool :=
  !t.highs.isEmpty && t.errors.isEmpty

/-- The `do`/`while` page loop of `dmfs_parse`, with fuel for the recursive
continuation.  Per iteration: `end` is `end_offset` on the final page index
and `PAGE_CACHE_SIZE` otherwise; a page missing from the cache is skipped
outright (its reference-count handling is not modelled); a present page that
is not up to date takes the `broken` exit (table discarded, NULL returned); an
up-to-date page is fed through `dmfs_parse_page`, whose `-1` return takes the
`parse_error` exit.  The loop then advances while `index != end_index`; an
advance past `end_index` (which in C would walk page indices indefinitely) is
reported as divergence. -/
def parseLoopGo (ps : Nat) (reg : Registry) (addOk : AddOracle)
    (endIndex endOffset : Nat) (pages : Nat → PageSlot) :
    Nat → PPState → Nat → ParseOut
  | fuel, st, index =>
    let e := if index = endIndex then endOffset else ps
    let stepRes :
        (PPState × List (Nat × List Char) × List Event × List (Nat × Nat)) ⊕
        (List (Nat × List Char) × List Event × List (Nat × Nat) × Bool) :=
      match pages index with
      | PageSlot.absent => Sum.inl (st, [], [], [])
      | PageSlot.notUpToDate _ => Sum.inr ([], [], [], false)
      | PageSlot.upToDate data =>
        let r := dmfs_parse_page ps reg addOk st (data.take e)
        if r.err || r.diverged then Sum.inr (r.calls, r.events, [(index, e)], r.diverged)
        else Sum.inl (r.st, r.calls, r.events, [(index, e)])
    match stepRes with
    | Sum.inr (cs, es, fs, d) =>
      { table := none, calls := cs, events := es, fed := fs,
        createdTable := true, diverged := d }
    | Sum.inl (st1, cs, es, fs) =>
      if index + 1 = endIndex then
        { table := if dm_table_complete st1.t then some st1.t else none,
          calls := cs, events := es, fed := fs, createdTable := true, diverged := false }
      else if index + 1 < endIndex then
        match fuel with
        | 0 =>
          { table := none, calls := cs, events := es, fed := fs,
            createdTable := true, diverged := true }
        | fuel1 + 1 =>
          let r := parseLoopGo ps reg addOk endIndex endOffset pages fuel1 st1 (index + 1)
          { table := r.table, calls := cs ++ r.calls, events := es ++ r.events,
            fed := fs ++ r.fed, createdTable := true, diverged := r.diverged }
      else
        { table := none, calls := cs, events := es, fed := fs,
          createdTable := true, diverged := true }

/-- `dmfs_parse(inode)`: reject a zero-size inode before any allocation, else
create an empty table and an (uninitialized) scratch page and run the page
loop from index 0; `end_index = i_size >> PAGE_CACHE_SHIFT` and
`end_offset = i_size & (PAGE_CACHE_SIZE - 1)` become division and remainder
by the page size `ps`.  After a clean loop, `dm_table_complete` decides
whether the table or NULL is returned. -/
def dmfs_parse (ps : Nat) (reg : Registry) (addOk : AddOracle) (iSize : Nat)
    (pages : Nat → PageSlot) (scratchInit : List Char) : ParseOut :=
  if iSize = 0 then
    { table := none, calls := [], events := [], fed := [],
      createdTable := false, diverged := false }
  else
    parseLoopGo ps reg addOk (iSize / ps) (iSize % ps) pages (iSize / ps)
      { t := { highs := [], errors := [] }, tmp := scratchInit, tmpl := 0, num := 0 } 0

/-- Feed a sequence of chunks through `dmfs_parse_page`, carrying the shared
state (line buffer, fill length, line counter, table) between calls and
stopping, like `dmfs_parse`, as soon as a call returns `-1`.  Returns the
final state and the concatenated line-parser invocations. -/
def feedChunks (ps : Nat) (reg : Registry) (addOk : AddOracle) :
    PPState → List (List Char) → PPState × List (Nat × List Char)
  | st, [] => (st, [])
  | st, b :: bs =>
    let r := dmfs_parse_page ps reg addOk st b
    if r.err then (r.st, r.calls)
    else
      let rest := feedChunks ps reg addOk r.st bs
      (rest.1, r.calls ++ rest.2)

/-! Concrete fixtures used to evaluate the model on specific inputs. -/

/-- A registry with no registered target types. -/
def reg0 : Registry := fun _ => none

/-- An add oracle on which `dm_table_add_target` always fails. -/
def add0 : AddOracle := fun _ _ => false

/-- An add oracle on which `dm_table_add_target` always succeeds. -/
def add1 : AddOracle := fun _ _ => true

/-- A registry with one target type "x" whose constructor always succeeds. -/
def regLin : Registry := fun s => if s = "x" then some ⟨fun _ _ _ => some 0⟩ else none

/-- A registry with one target type "f" whose constructor always fails. -/
def regFail : Registry := fun s => if s = "f" then some ⟨fun _ _ _ => none⟩ else none

/-- The empty table fresh from `dm_create_table`. -/
def emptyTable : DmTable := ⟨[], []⟩

/-- Fresh shared state over a scratch page of `ps` bytes (arbitrary initial
contents, here `#`). -/
def st0 (ps : Nat) : PPState := ⟨emptyTable, List.replicate ps '#', 0, 0⟩

/-- Scratch-page initial contents for the `dmfs_parse` fixtures. -/
def scratch8 : List Char := List.replicate 8 '#'

/-- Page cache for a 9-byte file over 8-byte pages: page 0 holds
`"ab\ncdefg"`, page 1 holds the final byte `Z` (plus stale bytes past
end-of-file). -/
def pagesC4 : Nat → PageSlot := fun i =>
  if i = 0 then PageSlot.upToDate ['a', 'b', '\n', 'c', 'd', 'e', 'f', 'g']
  else PageSlot.upToDate ['Z', '#', '#', '#', '#', '#', '#', '#']

/-- Page cache for a 16-byte file over 8-byte pages whose first page is
present but not up to date, while the second page holds a well-formed table
line. -/
def pagesC9 : Nat → PageSlot := fun i =>
  if i = 0 then PageSlot.notUpToDate (List.replicate 8 'x')
  else PageSlot.upToDate ['0', ' ', '1', ' ', 'x', '\n', '#', '#']

/-- Page cache whose first page is missing and whose later pages hold a
well-formed table line. -/
def pagesAbs : Nat → PageSlot := fun i =>
  if i = 0 then PageSlot.absent
  else PageSlot.upToDate ['0', ' ', '1', ' ', 'x', '\n', '#', '#']

/-- A page cache holding everywhere a full 4-byte page with no newline. -/
def pagesLong : Nat → PageSlot := fun _ => PageSlot.upToDate ['a', 'b', 'c', 'd']

end Dmfs

namespace Dmfs

/-- Values produced by `simple_strtoul` are reduced modulo `W` at every
digit, hence below `W`. -/
theorem simple_strtoul_lt (tok : List Char) : simple_strtoul tok < W := by
  have hW : 0 < W := by norm_num [W]
  unfold simple_strtoul
  generalize tok.takeWhile (fun c => c.isDigit) = l
  have h : ∀ (l : List Char) (a : Nat), a < W →
      l.foldl (fun a c => (a * 10 + (c.toNat - 48)) % W) a < W := by
    intro l
    induction l with
    | nil => intro a ha; simpa using ha
    | cons c cs ih => intro a ha; simp only [List.foldl_cons]; exact ih _ (Nat.mod_lt _ hW)
  exact h l 0 hW

/-- C2: on a line whose first two tokens are valid unsigned integers, when
`start` differs from the expected next start (`0` for an empty table, else
previous high + 1, as computed by `start_of_next_range`), `dmfs_parse_line`
records exactly the error "Gap in table" for that line, leaves the table's
targets unchanged, and touches no external collaborator (no registry lookup,
no constructor), returning normally so later lines are parsed independently. -/
theorem gap_line_rejected_with_gap_error (reg : Registry) (addOk : AddOracle)
    (t : DmTable) (num : Nat) (str tok1 tok2 : List Char) (p1 p2 : Option (List Char))
    (h1 : next_token (some str) = (some tok1, p1))
    (h2 : next_token p1 = (some tok2, p2))
    (_hd1 : tok1 ≠ [] ∧ ∀ c ∈ tok1, c.isDigit = true)
    (_hd2 : tok2 ≠ [] ∧ ∀ c ∈ tok2, c.isDigit = true)
    (hgap : simple_strtoul tok1 ≠ start_of_next_range t) :
    (dmfs_parse_line reg addOk t num str).1.highs = t.highs ∧
    (dmfs_parse_line reg addOk t num str).1.errors = t.errors ++ [(num, "Gap in table")] ∧
    (dmfs_parse_line reg addOk t num str).2.2 = [] := by
  simp [dmfs_parse_line, h1, h2, hgap, dmfs_add_error]

/-- Witness for C2 on the line "5 3 x" against an empty table (expected
start 0, actual 5). -/
theorem gap_line_rejected_with_gap_error_witness :
    (dmfs_parse_line reg0 add0 emptyTable 0 ['5', ' ', '3', ' ', 'x']).1.highs = [] ∧
    (dmfs_parse_line reg0 add0 emptyTable 0 ['5', ' ', '3', ' ', 'x']).1.errors
      = [(0, "Gap in table")] ∧
    (dmfs_parse_line reg0 add0 emptyTable 0 ['5', ' ', '3', ' ', 'x']).2.2 = [] := by
  have h := gap_line_rejected_with_gap_error reg0 add0 emptyTable 0
    ['5', ' ', '3', ' ', 'x'] ['5'] ['3'] (some ['3', ' ', 'x']) (some ['x'])
    (by decide) (by decide) (by decide) (by decide) (by decide)
  simpa [emptyTable] using h

/-- C7: on a line that reaches target-type resolution (two tokens parsed and
the gap check passed) whose third token is not in the registry,
`dmfs_parse_line` records exactly the error "Target type unknown" for that
line, and its event trace is the single failed lookup — in particular no
constructor is ever invoked for that line. -/
theorem unknown_target_type_reports_without_ctr (reg : Registry) (addOk : AddOracle)
    (t : DmTable) (num : Nat) (str tok1 tok2 tok3 : List Char)
    (p1 p2 p3 : Option (List Char))
    (h1 : next_token (some str) = (some tok1, p1))
    (h2 : next_token p1 = (some tok2, p2))
    (hgap : simple_strtoul tok1 = start_of_next_range t)
    (h3 : next_token p2 = (some tok3, p3))
    (hreg : reg (String.mk tok3) = none) :
    (dmfs_parse_line reg addOk t num str).1.errors
      = t.errors ++ [(num, "Target type unknown")] ∧
    (dmfs_parse_line reg addOk t num str).1.highs = t.highs ∧
    (dmfs_parse_line reg addOk t num str).2.2 = [Event.getType (String.mk tok3) false] ∧
    ∀ nm s z b, Event.ctrCall nm s z b ∉ (dmfs_parse_line reg addOk t num str).2.2 := by
  simp [dmfs_parse_line, h1, h2, hgap, h3, hreg, dmfs_add_error]

/-- Witness for C7 on the line "0 100 bogus" against an empty registry. -/
theorem unknown_target_type_reports_without_ctr_witness :
    (dmfs_parse_line reg0 add0 emptyTable 0
        ['0', ' ', '1', '0', '0', ' ', 'b', 'o', 'g', 'u', 's']).1.errors
      = [(0, "Target type unknown")] ∧
    (dmfs_parse_line reg0 add0 emptyTable 0
        ['0', ' ', '1', '0', '0', ' ', 'b', 'o', 'g', 'u', 's']).2.2
      = [Event.getType "bogus" false] := by
  have h := unknown_target_type_reports_without_ctr reg0 add0 emptyTable 0
    ['0', ' ', '1', '0', '0', ' ', 'b', 'o', 'g', 'u', 's'] ['0'] ['1', '0', '0']
    ['b', 'o', 'g', 'u', 's'] (some ['1', '0', '0', ' ', 'b', 'o', 'g', 'u', 's'])
    (some ['b', 'o', 'g', 'u', 's']) none
    (by decide) (by decide) (by decide) (by decide) rfl
  exact ⟨by simpa [emptyTable] using h.1, by simpa using h.2.2.1⟩

/-- C6: on a line whose constructor succeeds but whose table append fails,
`dmfs_parse_line` calls the target type's destructor on the just-created
context immediately after the failed append, releases the registry handle,
records exactly the error "Error adding target to table", and leaves the
table's targets unchanged.  The append is attempted with
`high = start + size - 1`. -/
theorem add_target_failure_destroys_context_and_reports (reg : Registry)
    (addOk : AddOracle) (t : DmTable) (num : Nat) (str tok1 tok2 tok3 : List Char)
    (p1 p2 p3 : Option (List Char)) (ttype : TargetType) (ctx : Nat)
    (h1 : next_token (some str) = (some tok1, p1))
    (h2 : next_token p1 = (some tok2, p2))
    (hgap : simple_strtoul tok1 = start_of_next_range t)
    (h3 : next_token p2 = (some tok3, p3))
    (hreg : reg (String.mk tok3) = some ttype)
    (hctr : ttype.ctr (simple_strtoul tok1) (simple_strtoul tok2) p3 = some ctx)
    (hsz : 1 ≤ simple_strtoul tok2)
    (hfit : simple_strtoul tok1 + simple_strtoul tok2 ≤ W)
    (hadd : addOk t.highs (simple_strtoul tok1 + simple_strtoul tok2 - 1) = false) :
    (dmfs_parse_line reg addOk t num str).1.errors
      = t.errors ++ [(num, "Error adding target to table")] ∧
    (dmfs_parse_line reg addOk t num str).1.highs = t.highs ∧
    (dmfs_parse_line reg addOk t num str).2.2
      = [Event.getType (String.mk tok3) true,
         Event.ctrCall (String.mk tok3) (simple_strtoul tok1) (simple_strtoul tok2) true,
         Event.addTarget (simple_strtoul tok1 + simple_strtoul tok2 - 1) false,
         Event.dtrCall (String.mk tok3), Event.putType (String.mk tok3)] := by
  have hlt : simple_strtoul tok2 < W := simple_strtoul_lt tok2
  have hW : W = 18446744073709551616 := by norm_num [W]
  rw [hgap] at hctr hadd hfit
  have hhigh : targetHigh (start_of_next_range t) (simple_strtoul tok2)
      = start_of_next_range t + simple_strtoul tok2 - 1 := by
    unfold targetHigh
    rw [hW] at hlt hfit ⊢
    omega
  simp [dmfs_parse_line, h1, h2, hgap, h3, hreg, hctr, hhigh, hadd, dmfs_add_error]

/-- Witness for C6 on the line "0 2 x" with a registry whose constructor for
"x" succeeds and an add oracle that always fails. -/
theorem add_target_failure_destroys_context_and_reports_witness :
    (dmfs_parse_line regLin add0 emptyTable 0 ['0', ' ', '2', ' ', 'x']).1.errors
      = [(0, "Error adding target to table")] ∧
    (dmfs_parse_line regLin add0 emptyTable 0 ['0', ' ', '2', ' ', 'x']).1.highs = [] ∧
    (dmfs_parse_line regLin add0 emptyTable 0 ['0', ' ', '2', ' ', 'x']).2.2
      = [Event.getType "x" true, Event.ctrCall "x" 0 2 true, Event.addTarget 1 false,
         Event.dtrCall "x", Event.putType "x"] := by
  have h := add_target_failure_destroys_context_and_reports regLin add0 emptyTable 0
    ['0', ' ', '2', ' ', 'x'] ['0'] ['2'] ['x'] (some ['2', ' ', 'x']) (some ['x']) none
    ⟨fun _ _ _ => some 0⟩ 0
    (by decide) (by decide) (by decide) (by decide) (by simp [regLin]) rfl
    (by decide) (by decide) rfl
  simpa [emptyTable] using h

/-- C5 fails on the code: on the success path (lookup, constructor and append
all succeed) `dmfs_parse_line` returns directly from inside the `if` without
reaching `dm_put_target_type`, so the acquired handle is NOT released on every
exit path.  On the line "0 1 x" with a succeeding constructor and append, the
event trace contains the successful lookup but no release. -/
theorem success_path_retains_target_type_handle :
    (dmfs_parse_line regLin add1 emptyTable 0 ['0', ' ', '1', ' ', 'x']).2.2
      = [Event.getType "x" true, Event.ctrCall "x" 0 1 true, Event.addTarget 0 true] ∧
    Event.putType "x" ∉ (dmfs_parse_line regLin add1 emptyTable 0 ['0', ' ', '1', ' ', 'x']).2.2 := by
  decide

/-- C5 as amended: on a line whose registry lookup succeeds, the handle is
released by `dm_put_target_type` before return on both failure exit paths
(constructor failure, append failure); on the success path the handle is not
released but retained with the table entry. -/
theorem target_type_handle_released_on_failure_paths (reg : Registry)
    (addOk : AddOracle) (t : DmTable) (num : Nat) (str tok1 tok2 tok3 : List Char)
    (p1 p2 p3 : Option (List Char)) (ttype : TargetType)
    (h1 : next_token (some str) = (some tok1, p1))
    (h2 : next_token p1 = (some tok2, p2))
    (hgap : simple_strtoul tok1 = start_of_next_range t)
    (h3 : next_token p2 = (some tok3, p3))
    (hreg : reg (String.mk tok3) = some ttype) :
    (ttype.ctr (start_of_next_range t) (simple_strtoul tok2) p3 = none →
      (dmfs_parse_line reg addOk t num str).2.2
        = [Event.getType (String.mk tok3) true,
           Event.ctrCall (String.mk tok3) (start_of_next_range t) (simple_strtoul tok2) false,
           Event.putType (String.mk tok3)]) ∧
    (∀ ctx, ttype.ctr (start_of_next_range t) (simple_strtoul tok2) p3 = some ctx →
      addOk t.highs (targetHigh (start_of_next_range t) (simple_strtoul tok2)) = false →
      (dmfs_parse_line reg addOk t num str).2.2
        = [Event.getType (String.mk tok3) true,
           Event.ctrCall (String.mk tok3) (start_of_next_range t) (simple_strtoul tok2) true,
           Event.addTarget (targetHigh (start_of_next_range t) (simple_strtoul tok2)) false,
           Event.dtrCall (String.mk tok3), Event.putType (String.mk tok3)]) ∧
    (∀ ctx, ttype.ctr (start_of_next_range t) (simple_strtoul tok2) p3 = some ctx →
      addOk t.highs (targetHigh (start_of_next_range t) (simple_strtoul tok2)) = true →
      (dmfs_parse_line reg addOk t num str).2.2
        = [Event.getType (String.mk tok3) true,
           Event.ctrCall (String.mk tok3) (start_of_next_range t) (simple_strtoul tok2) true,
           Event.addTarget (targetHigh (start_of_next_range t) (simple_strtoul tok2)) true]) := by
  refine ⟨fun hctr => ?_, fun ctx hctr hadd => ?_, fun ctx hctr hadd => ?_⟩
  · simp [dmfs_parse_line, h1, h2, hgap, h3, hreg, hctr, dmfs_add_error]
  · simp [dmfs_parse_line, h1, h2, hgap, h3, hreg, hctr, hadd, dmfs_add_error]
  · simp [dmfs_parse_line, h1, h2, hgap, h3, hreg, hctr, hadd, dmfs_add_error]

/-- Witness for the amended C5 on the constructor-failure path: line "0 1 f"
with a registry whose constructor for "f" fails. -/
theorem target_type_handle_released_on_failure_paths_witness :
    (dmfs_parse_line regFail add1 emptyTable 0 ['0', ' ', '1', ' ', 'f']).2.2
      = [Event.getType "f" true, Event.ctrCall "f" 0 1 false, Event.putType "f"] := by
  have h := target_type_handle_released_on_failure_paths regFail add1 emptyTable 0
    ['0', ' ', '1', ' ', 'f'] ['0'] ['1'] ['f'] (some ['1', ' ', 'f']) (some ['f']) none
    ⟨fun _ _ _ => none⟩
    (by decide) (by decide) (by decide) (by decide) (by simp [regFail])
  have h1 := h.1 rfl
  have e1 : start_of_next_range emptyTable = 0 := by decide
  have e2 : simple_strtoul ['1'] = 1 := by decide
  rw [e1, e2] at h1
  simpa using h1

/-- C1 fails on the code: because `dmfs_parse_page` assigns `*tmpl = copied`
instead of accumulating (`*tmpl += copied`), the fill position of the shared
line buffer is lost when a line spans more than two chunks.  Delivering the
content "ABCD\n" as the three chunks "AB", "CD", "\n" writes the final NUL at
position 2 instead of 4, so the line parser is invoked with the text "AB";
delivering the same content as a single chunk invokes it with "ABCD". -/
theorem chunked_and_single_chunk_parse_disagree :
    (feedChunks 16 reg0 add0 (st0 16) [['A', 'B'], ['C', 'D'], ['\n']]).2
      = [(0, ['A', 'B'])] ∧
    (feedChunks 16 reg0 add0 (st0 16) [['A', 'B', 'C', 'D', '\n']]).2
      = [(0, ['A', 'B', 'C', 'D'])] := by
  decide

/-- C10: a zero-size inode makes `dmfs_parse` return NULL before doing
anything: no table is created, no chunk is fed, no line-parser call, no
external event, and certainly no error is recorded. -/
theorem zero_size_parse_returns_null_immediately (ps : Nat) (reg : Registry)
    (addOk : AddOracle) (pages : Nat → PageSlot) (scratchInit : List Char) :
    dmfs_parse ps reg addOk 0 pages scratchInit
      = { table := none, calls := [], events := [], fed := [],
          createdTable := false, diverged := false } := by
  simp [dmfs_parse]

/-- C4 fails on the code: the page loop `do { ... index++ } while (index !=
end_index)` exits when `index` reaches `end_index` without ever feeding the
final partial page.  For a 9-byte file over 8-byte pages the parse feeds only
the 8 bytes of page 0 (and no fatal error occurs: the loop runs to the
finalization attempt), so the final byte at offset 8 is never fed through the
assembler. -/
theorem final_partial_chunk_never_fed :
    (dmfs_parse 8 reg0 add0 9 pagesC4 scratch8).fed = [(0, 8)] ∧
    (dmfs_parse 8 reg0 add0 9 pagesC4 scratch8).diverged = false ∧
    (dmfs_parse 8 reg0 add0 9 pagesC4 scratch8).calls = [(0, ['a', 'b'])] := by
  decide

/-- C9 fails on the code: a page that is present but not materialized
(`!Page_Uptodate`) does not parse as zero bytes and does not let the parse
continue — `dmfs_parse` takes the `broken` exit, discards the table and
returns NULL.  With page 0 not up to date and page 1 holding a well-formed
line, nothing at all is fed (page 1 is never reached) and no table results,
where the claim asserts the region parses as blanks and the following chunks
are still processed. -/
theorem not_uptodate_page_aborts_parse :
    (dmfs_parse 8 regLin add1 16 pagesC9 scratch8).table = none ∧
    (dmfs_parse 8 regLin add1 16 pagesC9 scratch8).fed = [] ∧
    (dmfs_parse 8 regLin add1 16 pagesC9 scratch8).events = [] := by
  decide

/-- Every exit of the page loop reports that `dm_create_table` had been
reached. -/
theorem parseLoopGo_createdTable (ps : Nat) (reg : Registry) (addOk : AddOracle)
    (endIndex endOffset : Nat) (pages : Nat → PageSlot) (fuel : Nat) (st : PPState)
    (index : Nat) :
    (parseLoopGo ps reg addOk endIndex endOffset pages fuel st index).createdTable = true := by
  rw [parseLoopGo]
  split
  · rfl
  · split
    · rfl
    · split
      · split <;> rfl
      · rfl

/-- C9 as amended: a page missing from the page cache is skipped outright —
no bytes (zero-filled or otherwise) are fed for that region, no error is
recorded, and the loop continues with the next page on the unchanged shared
state; a page that is present but not up to date aborts the whole parse with
no table, nothing fed and no events. -/
theorem absent_page_skipped_not_uptodate_aborts :
    (∀ (ps : Nat) (reg : Registry) (addOk : AddOracle) (endIndex endOffset : Nat)
       (pages : Nat → PageSlot) (fuel : Nat) (st : PPState) (index : Nat),
       pages index = PageSlot.absent → index + 1 < endIndex →
       parseLoopGo ps reg addOk endIndex endOffset pages (fuel + 1) st index
         = parseLoopGo ps reg addOk endIndex endOffset pages fuel st (index + 1)) ∧
    (∀ (ps : Nat) (reg : Registry) (addOk : AddOracle) (endIndex endOffset : Nat)
       (pages : Nat → PageSlot) (fuel : Nat) (st : PPState) (index : Nat)
       (d : List Char),
       pages index = PageSlot.notUpToDate d →
       parseLoopGo ps reg addOk endIndex endOffset pages fuel st index
         = { table := none, calls := [], events := [], fed := [],
             createdTable := true, diverged := false }) := by
  constructor
  · intro ps reg addOk endIndex endOffset pages fuel st index habs hlt
    have hne : ¬(index + 1 = endIndex) := by omega
    have hct := parseLoopGo_createdTable ps reg addOk endIndex endOffset pages fuel st (index + 1)
    rcases hR : parseLoopGo ps reg addOk endIndex endOffset pages fuel st (index + 1)
      with ⟨tab, cs, es, fs, ct, dv⟩
    rw [hR] at hct
    conv_lhs => rw [parseLoopGo]
    simp [habs, hne, hlt, hR, hct.symm]
  · intro ps reg addOk endIndex endOffset pages fuel st index d hnu
    rw [parseLoopGo]
    simp [hnu]

/-- Witness for the amended C9: with page 0 absent the loop step from index 0
is exactly the loop from index 1 on the same state; with page 0 not up to
date the parse aborts with the empty outcome. -/
theorem absent_page_skipped_not_uptodate_aborts_witness :
    parseLoopGo 8 regLin add1 3 0 pagesAbs 2 (st0 8) 0
      = parseLoopGo 8 regLin add1 3 0 pagesAbs 1 (st0 8) 1 ∧
    parseLoopGo 8 regLin add1 2 0 pagesC9 2 (st0 8) 0
      = { table := none, calls := [], events := [], fed := [],
          createdTable := true, diverged := false } := by
  constructor
  · exact absent_page_skipped_not_uptodate_aborts.1 8 regLin add1 3 0 pagesAbs 1 (st0 8) 0
      (by decide) (by decide)
  · exact absent_page_skipped_not_uptodate_aborts.2 8 regLin add1 2 0 pagesC9 2 (st0 8) 0
      (List.replicate 8 'x') (by decide)

/-- A `dmfs_parse_page` call that returns `-1` did not take the
no-progress (divergence) exit: `-1` comes only from the "Line too long"
branch, which returns directly. -/
theorem pageGo_err_not_diverged (ps : Nat) (reg : Registry) (addOk : AddOracle) :
    ∀ (fuel : Nat) (st : PPState) (buf : List Char),
      (dmfs_parse_pageGo ps reg addOk fuel st buf).err = true →
      (dmfs_parse_pageGo ps reg addOk fuel st buf).diverged = false := by
  intro fuel
  induction fuel with
  | zero =>
    intro st buf
    rw [dmfs_parse_pageGo]
    rcases hc : dmfs_copy st.tmp st.tmpl (ps - st.tmpl - 1) buf with ⟨tmp1, copied, flag⟩
    by_cases hfill : st.tmpl + copied = ps - 1
    · simp [hfill]
    · by_cases hrem : (List.drop copied buf).length = 0
      · simp [hfill, hrem]
      · by_cases hcop : copied = 0
        · subst hcop
          have hfill0 : ¬(st.tmpl = ps - 1) := by simpa using hfill
          have hbuf : ¬(buf = []) := by simpa using hrem
          simp [hfill0, hbuf]
        · have hd : ¬(buf.length - copied = 0) := by simpa using hrem
          simp [hfill, hd, hcop]
  | succ fuel1 ih =>
    intro st buf
    rw [dmfs_parse_pageGo]
    rcases hc : dmfs_copy st.tmp st.tmpl (ps - st.tmpl - 1) buf with ⟨tmp1, copied, flag⟩
    by_cases hfill : st.tmpl + copied = ps - 1
    · simp [hfill]
    · by_cases hrem : (List.drop copied buf).length = 0
      · simp [hfill, hrem]
      · by_cases hcop : copied = 0
        · subst hcop
          have hfill0 : ¬(st.tmpl = ps - 1) := by simpa using hfill
          have hbuf : ¬(buf = []) := by simpa using hrem
          simp [hfill0, hbuf]
        · have hd : ¬(buf.length - copied = 0) := by simpa using hrem
          simp [hfill, hd, hcop]
          exact ih _ _

/-- C3: (first part) whenever a `dmfs_parse_page` iteration's copy fills the
line buffer to `PAGE_SIZE - 1` without having met a newline, the call records
exactly the error "Line too long" against the current line number, hands no
line to the line parser, and returns `-1` with the remaining source bytes
unprocessed; (second part) a page whose `dmfs_parse_page` returns `-1` makes
the page loop abort at that page: nothing further is fed, the in-progress
table is discarded (`dm_put_table`) and `dmfs_parse` returns NULL. -/
theorem line_too_long_aborts_parse :
    (∀ (ps : Nat) (reg : Registry) (addOk : AddOracle) (fuel : Nat) (st : PPState)
       (buf tmp1 : List Char) (copied : Nat),
       dmfs_copy st.tmp st.tmpl (ps - st.tmpl - 1) buf = (tmp1, copied, false) →
       st.tmpl + copied = ps - 1 →
       dmfs_parse_pageGo ps reg addOk fuel st buf
         = { st := { st with t := dmfs_add_error st.t st.num "Line too long", tmp := tmp1 },
             calls := [], events := [], err := true, diverged := false }) ∧
    (∀ (ps : Nat) (reg : Registry) (addOk : AddOracle) (endIndex endOffset : Nat)
       (pages : Nat → PageSlot) (fuel : Nat) (st : PPState) (index : Nat)
       (data : List Char),
       pages index = PageSlot.upToDate data →
       (dmfs_parse_page ps reg addOk st
         (data.take (if index = endIndex then endOffset else ps))).err = true →
       parseLoopGo ps reg addOk endIndex endOffset pages fuel st index
         = { table := none,
             calls := (dmfs_parse_page ps reg addOk st
               (data.take (if index = endIndex then endOffset else ps))).calls,
             events := (dmfs_parse_page ps reg addOk st
               (data.take (if index = endIndex then endOffset else ps))).events,
             fed := [(index, if index = endIndex then endOffset else ps)],
             createdTable := true, diverged := false }) := by
  constructor
  · intro ps reg addOk fuel st buf tmp1 copied hcopy hfill
    rw [dmfs_parse_pageGo]
    simp [hcopy, hfill]
  · intro ps reg addOk endIndex endOffset pages fuel st index data hpage herr
    have hdiv : (dmfs_parse_page ps reg addOk st
        (data.take (if index = endIndex then endOffset else ps))).diverged = false := by
      have h' := herr
      simp only [dmfs_parse_page] at h' ⊢
      exact pageGo_err_not_diverged ps reg addOk _ st _ h'
    rw [parseLoopGo]
    simp [hpage, herr, hdiv]

/-- Witness for C3: a 3-byte newline-free chunk against a 4-byte page fills
the buffer to capacity minus one and aborts; a page of such content makes the
whole parse abort at that page with nothing further fed. -/
theorem line_too_long_aborts_parse_witness :
    dmfs_parse_pageGo 4 reg0 add0 5 (st0 4) ['a', 'b', 'c']
      = { st := { (st0 4) with
                  t := dmfs_add_error (st0 4).t (st0 4).num "Line too long",
                  tmp := ['a', 'b', 'c', '#'] },
          calls := [], events := [], err := true, diverged := false } ∧
    parseLoopGo 4 reg0 add0 2 0 pagesLong 2 (st0 4) 0
      = { table := none, calls := [], events := [], fed := [(0, 4)],
          createdTable := true, diverged := false } := by
  constructor
  · exact line_too_long_aborts_parse.1 4 reg0 add0 5 (st0 4) ['a', 'b', 'c']
      ['a', 'b', 'c', '#'] 3 (by decide) (by decide)
  · have h := line_too_long_aborts_parse.2 4 reg0 add0 2 0 pagesLong 2 (st0 4) 0
      ['a', 'b', 'c', 'd'] (by decide) (by decide)
    rw [h]
    decide

/-- One `dmfs_copy` call consumes, among the source bytes, exactly one
newline when it sets the flag and none otherwise: the newlines of the source
split as the flag plus the newlines of the unconsumed suffix. -/
theorem dmfs_copy_count : ∀ (src tmp : List Char) (pos dl : Nat),
    src.count '\n'
      = (if (dmfs_copy tmp pos dl src).2.2 = true then 1 else 0)
        + (src.drop (dmfs_copy tmp pos dl src).2.1).count '\n' := by
  intro src
  induction src with
  | nil => intro tmp pos dl; cases dl <;> simp [dmfs_copy]
  | cons c rest ih =>
    intro tmp pos dl
    cases dl with
    | zero => simp [dmfs_copy]
    | succ dl1 =>
      by_cases hc : c = '\n'
      · subst hc
        simp [dmfs_copy, List.count_cons]
        omega
      · have h := ih (tmp.set pos c) (pos + 1) dl1
        simp [dmfs_copy, hc, List.count_cons]
        omega

/-- C8: whenever the page-stream assembler returns without a fatal error (and
without spinning), it has handed the line parser exactly one line per newline
byte of the chunk, advancing the line counter by exactly that amount: content
after the last newline — in particular a trailing unterminated line at end of
input — is never passed to the line parser, produces no error, and is not
implicitly flushed. -/
theorem only_newline_terminated_lines_are_parsed (ps : Nat) (reg : Registry)
    (addOk : AddOracle) :
    ∀ (fuel : Nat) (st : PPState) (buf : List Char),
      (dmfs_parse_pageGo ps reg addOk fuel st buf).err = false →
      (dmfs_parse_pageGo ps reg addOk fuel st buf).diverged = false →
      (dmfs_parse_pageGo ps reg addOk fuel st buf).calls.length = buf.count '\n' ∧
      (dmfs_parse_pageGo ps reg addOk fuel st buf).st.num = st.num + buf.count '\n' := by
  intro fuel
  induction fuel with
  | zero =>
    intro st buf
    rw [dmfs_parse_pageGo]
    rcases hc : dmfs_copy st.tmp st.tmpl (ps - st.tmpl - 1) buf with ⟨tmp1, copied, flag⟩
    have hcnt := dmfs_copy_count buf st.tmp st.tmpl (ps - st.tmpl - 1)
    rw [hc] at hcnt
    by_cases hfill : st.tmpl + copied = ps - 1
    · simp [hfill]
    · by_cases hrem : buf.length - copied = 0
      · have hdrop : List.drop copied buf = [] := by
          have h0 : (List.drop copied buf).length = 0 := by
            rw [List.length_drop]; exact hrem
          exact List.eq_nil_of_length_eq_zero h0
        rw [hdrop] at hcnt
        cases flag
        · simp at hcnt
          simp [hfill, hrem, hcnt]
        · simp at hcnt
          simp [hfill, hrem, hcnt]
      · by_cases hcop : copied = 0
        · subst hcop
          have hfill0 : ¬(st.tmpl = ps - 1) := by simpa using hfill
          have hbuf : ¬(buf = []) := by
            intro hb; exact hrem (by simp [hb])
          simp [hfill0, hbuf]
        · simp [hfill, hrem, hcop]
  | succ fuel1 ih =>
    intro st buf
    rw [dmfs_parse_pageGo]
    rcases hc : dmfs_copy st.tmp st.tmpl (ps - st.tmpl - 1) buf with ⟨tmp1, copied, flag⟩
    have hcnt := dmfs_copy_count buf st.tmp st.tmpl (ps - st.tmpl - 1)
    rw [hc] at hcnt
    by_cases hfill : st.tmpl + copied = ps - 1
    · simp [hfill]
    · by_cases hrem : buf.length - copied = 0
      · have hdrop : List.drop copied buf = [] := by
          have h0 : (List.drop copied buf).length = 0 := by
            rw [List.length_drop]; exact hrem
          exact List.eq_nil_of_length_eq_zero h0
        rw [hdrop] at hcnt
        cases flag
        · simp at hcnt
          simp [hfill, hrem, hcnt]
        · simp at hcnt
          simp [hfill, hrem, hcnt]
      · by_cases hcop : copied = 0
        · subst hcop
          have hfill0 : ¬(st.tmpl = ps - 1) := by simpa using hfill
          have hbuf : ¬(buf = []) := by
            intro hb; exact hrem (by simp [hb])
          simp [hfill0, hbuf]
        · cases flag
          · simp at hcnt
            simp [hfill, hrem, hcop]
            intro herr hdiv
            obtain ⟨ih1, ih2⟩ := ih _ _ herr hdiv
            simp at ih1 ih2
            refine ⟨?_, ?_⟩ <;> omega
          · simp at hcnt
            simp [hfill, hrem, hcop]
            intro herr hdiv
            obtain ⟨ih1, ih2⟩ := ih _ _ herr hdiv
            simp at ih1 ih2
            refine ⟨?_, ?_⟩ <;> omega

/-- Witness for C8: the chunk "a\nb" yields exactly one line-parser call (its
single newline), and the trailing "b" is neither parsed nor flagged. -/
theorem only_newline_terminated_lines_are_parsed_witness :
    (dmfs_parse_pageGo 8 reg0 add0 3 (st0 8) ['a', '\n', 'b']).calls.length
      = List.count '\n' ['a', '\n', 'b'] ∧
    (dmfs_parse_pageGo 8 reg0 add0 3 (st0 8) ['a', '\n', 'b']).st.num
      = (st0 8).num + List.count '\n' ['a', '\n', 'b'] := by
  exact only_newline_terminated_lines_are_parsed 8 reg0 add0 3 (st0 8) ['a', '\n', 'b']
    (by decide) (by decide)

end Dmfs
